/-
Verification of the recipe-management REST API (Django/DRF recipe project).

The development shallowly embeds the repository's recipe app — the viewsets in
`app/recipe/views.py`, the serializers in `app/recipe/serializers.py` and the
router registrations in `app/recipe/urls.py` — as executable Lean definitions
over an explicit store of tags, ingredients and recipes, and proves the
specification's claims about them.

Conventions of the embedding:
- Database tables are lists of records; the object-relational layer's
  `filter`, `distinct`, `order_by` and many-to-many joins are modelled as
  list filtering, deduplication, sorting, and flat-mapped joins.
- Python exceptions (such as `ValueError` from `int(...)`) are modelled by
  `Option`: `none` is an uncaught exception escaping the view.
- Python's `int(str)` conversion is modelled for base 10 with Python's full
  whitespace-stripping table, an optional sign, and ASCII digit runs with
  single underscores between digits; Python's additional acceptance of
  non-ASCII decimal digits is outside the model, so statements of exactness
  about parsing are scoped to ASCII parameter values.
-/
import Mathlib

namespace RecipeProject

/-! ## Model of Python `int(...)` conversion on strings

`views.py` converts query-parameter strings with Python's built-in `int`:
`_params_to_ints` does `[int(str_id) for str_id in qs.split(",")]`, and
`BaseRecipeAttrViewset.get_queryset` does
`bool(int(self.request.query_params.get("assigned_only", 0)))`.
CPython's `int(s)` for base 10 first maps every Unicode decimal digit to its
ASCII digit and every Unicode whitespace character to a space, then strips
surrounding whitespace, accepts an optional ASCII `+`/`-` sign, then a run
of decimal digits in which single underscores may appear between digits; on
any other input it raises `ValueError`, modelled here as `none`. The model
carries Python's whitespace table in full; of the decimal digits it carries
the ASCII ones, so it is exact on ASCII input (and on whitespace anywhere),
while non-ASCII decimal digits — which `int()` also accepts — are outside
the model, and the exactness theorem below is scoped to ASCII values
accordingly. -/

/-- The characters Python's `int()` strips as surrounding whitespace: the
ASCII whitespace `0x09`-`0x0D` and `0x20`, plus the non-ASCII whitespace
code points that CPython maps to a space before parsing (`0x85`, `0xA0`,
`0x1680`, `0x2000`-`0x200A`, `0x2028`, `0x2029`, `0x202F`, `0x205F`,
`0x3000`). Note this is narrower than `str.isspace`, which also holds of
`0x1C`-`0x1F`; `int()` rejects those. -/
def isPySpace (c : Char) : Bool :=
  (0x09 ≤ c.toNat && c.toNat ≤ 0x0D) || c.toNat == 0x20 ||
  c.toNat == 0x85 || c.toNat == 0xA0 || c.toNat == 0x1680 ||
  (0x2000 ≤ c.toNat && c.toNat ≤ 0x200A) || c.toNat == 0x2028 ||
  c.toNat == 0x2029 || c.toNat == 0x202F || c.toNat == 0x205F ||
  c.toNat == 0x3000

/-- Strip leading and trailing whitespace characters (Python's whitespace
table) from a character list, as Python `int` does before parsing. -/
def stripWs (l : List Char) : List Char :=
  ((l.dropWhile isPySpace).reverse.dropWhile isPySpace).reverse

/-- Consume the remainder of a digit run (after its first digit has
contributed `acc`), allowing single underscores between digits, and return
the accumulated value; `none` models `ValueError`. -/
def digitsCore (acc : Nat) : List Char → Option Nat
  | [] => some acc
  | c :: rest =>
    if c.isDigit then digitsCore (10 * acc + (c.toNat - 48)) rest
    else if c = '_' then
      match rest with
      | [] => none
      | d :: rest2 =>
        if d.isDigit then digitsCore (10 * acc + (d.toNat - 48)) rest2
        else none
    else none

/-- Parse a non-empty unsigned digit run (single underscores allowed between
digits) to its value; `none` models `ValueError`. -/
def parseUnsigned : List Char → Option Nat
  | [] => none
  | c :: rest => if c.isDigit then digitsCore (c.toNat - 48) rest else none

/-- Parse an optionally signed digit run; `none` models `ValueError`. -/
def pyIntCore : List Char → Option Int
  | [] => none
  | c :: rest =>
    if c = '+' then (parseUnsigned rest).map Int.ofNat
    else if c = '-' then (parseUnsigned rest).map (fun n => -(n : Int))
    else (parseUnsigned (c :: rest)).map Int.ofNat

/-- Model of Python `int(s)` in base 10: strip surrounding whitespace
(Python's full whitespace table), then parse an optionally signed run of
ASCII decimal digits; `none` models an uncaught `ValueError`. Python also
accepts non-ASCII decimal digits by mapping them to ASCII first; those are
outside this model, so the model is exact on ASCII input. -/
def pyInt (s : String) : Option Int :=
  pyIntCore (stripWs s.data)

/-! ### Grammar-side characterizations of what `int(...)` accepts -/

/-- Grammar predicate: the remainder of a digit run — every character a digit,
except that single underscores may separate digits. -/
def digitRunTail : List Char → Bool
  | [] => true
  | c :: rest =>
    if c.isDigit then digitRunTail rest
    else if c = '_' then
      match rest with
      | [] => false
      | d :: rest2 => d.isDigit && digitRunTail rest2
    else false

/-- Grammar predicate: a non-empty digit run with single underscores allowed
between digits. -/
def isDigitRun : List Char → Bool
  | [] => false
  | c :: rest => c.isDigit && digitRunTail rest

/-- Grammar predicate characterizing the strings Python `int` accepts in
base 10: optional surrounding whitespace, an optional sign, then a non-empty
digit run with single underscores allowed between digits. -/
def pyIntAccepts (s : String) : Bool :=
  match stripWs s.data with
  | [] => false
  | c :: rest =>
    if c = '+' then isDigitRun rest
    else if c = '-' then isDigitRun rest
    else isDigitRun (c :: rest)

/-- Spec-side predicate, following the claim's words: the string is a plain
decimal integer literal — a non-empty run of decimal digits and nothing
else — optionally surrounded by whitespace. -/
def isPlainDecimalWs (s : String) : Bool :=
  decide (stripWs s.data ≠ []) && (stripWs s.data).all Char.isDigit

/-! ## Query-parameter parsing from `views.py` -/

/-- Character-level model of Python `str.split(sep)` for a one-character
separator: split into the (possibly empty) groups between occurrences of the
separator; the empty string yields the single group `[[]]`. -/
def splitChars (sep : Char) : List Char → List (List Char)
  | [] => [[]]
  | c :: rest =>
    if c = sep then [] :: splitChars sep rest
    else
      match splitChars sep rest with
      | [] => [[c]]
      | g :: gs => (c :: g) :: gs

/-- Model of Python `s.split(sep)` for a one-character separator. -/
def pySplit (s : String) (sep : Char) : List String :=
  (splitChars sep s.data).map String.mk

/-- List-comprehension step of `RecipeViewSet._params_to_ints`: convert each
component with `int(...)`; the first failing component raises, modelled by
`none`. -/
def paramsToIntsList : List String → Option (List Int)
  | [] => some []
  | c :: rest =>
    match pyInt c, paramsToIntsList rest with
    | some n, some ns => some (n :: ns)
    | _, _ => none

/-- `RecipeViewSet._params_to_ints`: split the query string on commas and
convert every component to an integer; `none` models the uncaught
`ValueError`. -/
def params_to_ints (qs : String) : Option (List Int) :=
  paramsToIntsList (pySplit qs ',')

/-- Parsing of the optional `tags`/`ingredients` filter parameter in
`RecipeViewSet.get_queryset`: an absent parameter, or one whose value is the
empty (falsy) string, yields no filter; a non-empty value is parsed by
`_params_to_ints`. `none` models the uncaught conversion exception,
`some none` means no filter is applied. -/
def parseFilterParam : Option String → Option (Option (List Int))
  | none => some none
  | some str => if str = "" then some none else (params_to_ints str).map some

/-- Parsing of `assigned_only` in `BaseRecipeAttrViewset.get_queryset`:
`bool(int(self.request.query_params.get("assigned_only", 0)))`. An absent
parameter defaults to the integer `0`; a present value is converted with
`int(...)` (which may raise, modelled by `none`) and then tested for
truthiness. -/
def parse_assigned_only : Option String → Option Bool
  | none => some false
  | some str => (pyInt str).map (fun n => decide (n ≠ 0))

/-! ## Data model

Modelled from the spec: the record shapes come from the spec's data model
(`core/models.py` itself is not among the sources; its shape is fixed by the
spec's section 3 and exercised by the repository's tests): Tag and
Ingredient are `{id, user, name}` records, Recipe is
`{id, user, title, time_minutes, price, link, image, tags, ingredients}`
with many-to-many tag/ingredient associations held as lists of record ids. -/

/-- A named, user-owned label record: the common shape of Tag and
Ingredient (`{id, user (owner), name}`). -/
structure Attr where
  id : Nat
  user : Nat
  name : String
deriving DecidableEq, Repr

/-- A recipe record: `{id, user (owner), title, time_minutes, price, link,
image (optional), tags, ingredients}`; the `tags` and `ingredients` fields
hold the ids of the associated records (the many-to-many association
tables). The price is carried as an integer number of cents. -/
structure Recipe where
  id : Nat
  user : Nat
  title : String
  time_minutes : Nat
  price : Int
  link : String
  image : Option String
  tags : List Nat
  ingredients : List Nat
deriving DecidableEq, Repr

/-- The persistent store: the Tag, Ingredient and Recipe tables. -/
structure Store where
  tags : List Attr
  ingredients : List Attr
  recipes : List Recipe
deriving DecidableEq, Repr

/-! ## Ordering used by `order_by`

The database's `order_by("name")` / `order_by("-id")` is modelled as a merge
sort under a total order: code-point lexicographic order on names, and
reversed numeric order on ids. -/

/-- Code-point lexicographic comparison of character lists. -/
def charsLe : List Char → List Char → Bool
  | [], _ => true
  | _ :: _, [] => false
  | a :: as, b :: bs =>
    if a.toNat < b.toNat then true
    else if b.toNat < a.toNat then false
    else charsLe as bs

/-- Name comparison backing `order_by("name")`. -/
def nameLe (a b : Attr) : Bool :=
  charsLe a.name.data b.name.data

/-- Id comparison backing `order_by("-id")` (descending ids). -/
def idGe (a b : Recipe) : Bool :=
  b.id ≤ a.id

/-! ## Queryset operations of `views.py` -/

/-- The join underlying `queryset.filter(recipe__isnull=False)` on the Tag or
Ingredient table: one row per (record, associated recipe) pair, so records
associated with several recipes occur several times until `distinct()`. -/
def attrRecipeJoin (attrs : List Attr) (recipes : List Recipe)
    (assoc : Recipe → List Nat) : List Attr :=
  attrs.flatMap (fun t => (recipes.filter (fun r => t.id ∈ assoc r)).map (fun _ => t))

/-- `BaseRecipeAttrViewset.get_queryset` after parameter parsing: when
`assigned_only` is set, keep only records associated with at least one
recipe (`filter(recipe__isnull=False).distinct()`); then restrict to the
requesting user's records and order by name
(`queryset.filter(user=self.request.user).order_by("name")`). -/
def base_get_queryset (attrs : List Attr) (recipes : List Recipe)
    (assoc : Recipe → List Nat) (uid : Nat) (assigned_only : Bool) : List Attr :=
  let queryset := if assigned_only then (attrRecipeJoin attrs recipes assoc).dedup else attrs
  (queryset.filter (fun t => t.user == uid)).mergeSort nameLe

/-- `TagViewSet`'s queryset: the base queryset over the Tag table. -/
def tag_get_queryset (s : Store) (uid : Nat) (assigned_only : Bool) : List Attr :=
  base_get_queryset s.tags s.recipes (fun r => r.tags) uid assigned_only

/-- `IngredientViewSet`'s queryset: the base queryset over the Ingredient
table. -/
def ingredient_get_queryset (s : Store) (uid : Nat) (assigned_only : Bool) : List Attr :=
  base_get_queryset s.ingredients s.recipes (fun r => r.ingredients) uid assigned_only

/-- A tag list request end to end: parse `assigned_only`, then evaluate the
queryset; `none` models the uncaught conversion exception. -/
def tag_list (s : Store) (uid : Nat) (assigned_only : Option String) :
    Option (List Attr) :=
  (parse_assigned_only assigned_only).map (tag_get_queryset s uid)

/-- An ingredient list request end to end: parse `assigned_only`, then
evaluate the queryset; `none` models the uncaught conversion exception. -/
def ingredient_list (s : Store) (uid : Nat) (assigned_only : Option String) :
    Option (List Attr) :=
  (parse_assigned_only assigned_only).map (ingredient_get_queryset s uid)

/-- The join underlying `queryset.filter(tags__in=tag_ids)` (resp.
`ingredients__in`): one row per (recipe, matching association) pair, so a
recipe matching several of the requested ids occurs several times until
`distinct()`. -/
def recipeAssocJoin (recipes : List Recipe) (assoc : Recipe → List Nat)
    (ids : List Int) : List Recipe :=
  recipes.flatMap (fun r => ((assoc r).filter (fun a => (a : Int) ∈ ids)).map (fun _ => r))

/-- `RecipeViewSet.get_queryset` after parameter parsing: starting from all
recipes, apply `filter(tags__in=tag_ids).distinct()` when a tags filter is
present, then `filter(ingredients__in=ingredient_ids).distinct()` when an
ingredients filter is present, then restrict to the requesting user's
recipes and order by descending id
(`queryset.filter(user=self.request.user).order_by("-id")`). -/
def recipe_get_queryset (s : Store) (uid : Nat)
    (tagIds ingredientIds : Option (List Int)) : List Recipe :=
  let queryset := s.recipes
  let queryset :=
    match tagIds with
    | none => queryset
    | some ids => (recipeAssocJoin queryset (fun r => r.tags) ids).dedup
  let queryset :=
    match ingredientIds with
    | none => queryset
    | some ids => (recipeAssocJoin queryset (fun r => r.ingredients) ids).dedup
  (queryset.filter (fun r => r.user == uid)).mergeSort idGe

/-- A recipe list request end to end: parse the optional `tags` and
`ingredients` parameters, then evaluate the queryset; `none` models the
uncaught conversion exception. -/
def recipe_list (s : Store) (uid : Nat) (tags ingredients : Option String) :
    Option (List Recipe) :=
  match parseFilterParam tags, parseFilterParam ingredients with
  | some tagIds, some ingredientIds => some (recipe_get_queryset s uid tagIds ingredientIds)
  | _, _ => none

/-! ## Serializer-level write operations (`serializers.py` + `views.py`)

Request payloads are records of optional fields: `none` is a field absent
from the request body. Following Django REST Framework's handling of form
payloads as exercised by the repository's tests, a many-to-many field absent
from a full (non-partial) update or a create validates as the empty list,
while on a partial update an absent field is skipped; absent scalar fields
are skipped on partial updates and required on full updates. The serializer
field sets contain no `user` field, so an owner given in the payload is
ignored. -/

/-- Payload of a recipe create or update request, per `RecipeSerializer`'s
writable fields (`title`, `time_minutes`, `price`, `link`, `ingredients`,
`tags`); `user` models an owner key in the request body, which is not a
serializer field and is therefore ignored. -/
structure RecipePayload where
  title : Option String
  time_minutes : Option Nat
  price : Option Int
  link : Option String
  tags : Option (List Nat)
  ingredients : Option (List Nat)
  user : Option Nat
deriving DecidableEq, Repr

/-- Payload of a tag or ingredient create request, per `TagSerializer` /
`IngredientSerializer` (`name` is the only writable field); `user` models an
owner key in the request body, ignored because it is not a serializer
field. -/
structure AttrPayload where
  name : String
  user : Option Nat
deriving DecidableEq, Repr

/-- Does a record with the given id exist in the table? This is the whole
validation performed by `PrimaryKeyRelatedField(queryset=....objects.all())`:
existence in the unrestricted table, with no ownership condition. -/
def existsAttrId (attrs : List Attr) (i : Nat) : Bool :=
  attrs.any (fun t => t.id == i)

/-- Validation of a list of association ids: every id must exist in the
unrestricted table. -/
def validIds (attrs : List Attr) (ids : List Nat) : Bool :=
  ids.all (existsAttrId attrs)

/-- Validation of an optional association field: an absent field is valid, a
present one is validated by `validIds`. -/
def optValidIds (attrs : List Attr) : Option (List Nat) → Bool
  | none => true
  | some ids => validIds attrs ids

/-- Auto-increment primary key for the Tag/Ingredient tables. -/
def nextAttrId (attrs : List Attr) : Nat :=
  (attrs.map (fun t => t.id)).foldr max 0 + 1

/-- Auto-increment primary key for the Recipe table. -/
def nextRecipeId (s : Store) : Nat :=
  (s.recipes.map (fun r => r.id)).foldr max 0 + 1

/-- Tag create (`CreateModelMixin` + `BaseRecipeAttrViewset.perform_create`):
validate the payload (a blank name is a validation failure) and store a new
tag whose owner is the requesting user (`serializer.save(user=self.request.user)`);
the payload's owner key, if any, is ignored. -/
def tag_create (s : Store) (uid : Nat) (p : AttrPayload) : Option (Store × Attr) :=
  if p.name = "" then none
  else
    let t : Attr := { id := nextAttrId s.tags, user := uid, name := p.name }
    some ({ s with tags := s.tags ++ [t] }, t)

/-- Ingredient create, identical to tag create over the Ingredient table. -/
def ingredient_create (s : Store) (uid : Nat) (p : AttrPayload) : Option (Store × Attr) :=
  if p.name = "" then none
  else
    let t : Attr := { id := nextAttrId s.ingredients, user := uid, name := p.name }
    some ({ s with ingredients := s.ingredients ++ [t] }, t)

/-- Recipe create (`RecipeSerializer` + `RecipeViewSet.perform_create`):
`title`, `time_minutes` and `price` are required, a blank title is a
validation failure, association ids must exist in the unrestricted tables,
an absent association field means no associations, and the stored recipe's
owner is the requesting user regardless of the payload. -/
def recipe_create (s : Store) (uid : Nat) (p : RecipePayload) : Option (Store × Recipe) :=
  match p.title, p.time_minutes, p.price with
  | some title, some tm, some price =>
    if title ≠ "" && validIds s.tags (p.tags.getD []) &&
        validIds s.ingredients (p.ingredients.getD []) then
      let r : Recipe :=
        { id := nextRecipeId s, user := uid, title := title, time_minutes := tm,
          price := price, link := p.link.getD "", image := none,
          tags := p.tags.getD [], ingredients := p.ingredients.getD [] }
      some ({ s with recipes := s.recipes ++ [r] }, r)
    else none
  | _, _, _ => none

/-- Are the fields required on a full update all present? A partial update
requires nothing. -/
def requiredOk (p : RecipePayload) (full : Bool) : Bool :=
  !full || (p.title.isSome && p.time_minutes.isSome && p.price.isSome)

/-- A present title must not be blank. -/
def titleOk (p : RecipePayload) : Bool :=
  match p.title with
  | none => true
  | some t => decide (t ≠ "")

/-- Field replacement of a recipe update: present scalar fields replace the
stored ones, absent ones are kept; the association sets are replaced by the
payload's when present, and an absent association field clears the set on a
full update while keeping it on a partial update. -/
def recipe_apply_update (r : Recipe) (p : RecipePayload) (full : Bool) : Recipe :=
  { r with
    title := p.title.getD r.title,
    time_minutes := p.time_minutes.getD r.time_minutes,
    price := p.price.getD r.price,
    link := p.link.getD r.link,
    tags := p.tags.getD (if full then [] else r.tags),
    ingredients := p.ingredients.getD (if full then [] else r.ingredients) }

/-- Recipe update (`PUT` when `full`, `PATCH` otherwise): the target is
looked up in the user-scoped queryset (`none` models the 404 on a missing or
foreign recipe), the payload is validated, and the stored recipe is
replaced; the owner field is untouched. -/
def recipe_update (s : Store) (uid : Nat) (rid : Nat) (p : RecipePayload)
    (full : Bool) : Option Store :=
  match s.recipes.find? (fun r => r.id == rid && r.user == uid) with
  | none => none
  | some _ =>
    if requiredOk p full && titleOk p && optValidIds s.tags p.tags &&
        optValidIds s.ingredients p.ingredients then
      some { s with
        recipes := s.recipes.map (fun x =>
          if x.id == rid && x.user == uid then recipe_apply_update x p full else x) }
    else none

/-! ## Image upload (`RecipeViewSet.upload_image` + `RecipeImageSerializer`) -/

/-- An uploaded file: a name and raw content bytes. -/
structure ImageFile where
  name : String
  content : List Nat
deriving DecidableEq, Repr

/-- Outcome of an image upload: success with the serialized body (the
`RecipeImageSerializer` fields `id` and `image`), a validation failure with
field-level error messages, or a missing/foreign recipe. -/
inductive UploadOutcome where
  | ok (body : Nat × String)
  | invalid (errors : List (String × String))
  | notFound
deriving DecidableEq, Repr

/-- `RecipeViewSet.upload_image`: fetch the recipe from the user-scoped
queryset, run the serializer, and either save and answer 200 with the
serialized data or answer 400 with the field errors, leaving the store
untouched. Image validity itself is decided by the framework's image field
(Pillow decoding), abstracted as the predicate `isImg`. -/
def upload_image (isImg : ImageFile → Bool) (s : Store) (uid : Nat) (rid : Nat)
    (f : ImageFile) : UploadOutcome × Store :=
  match s.recipes.find? (fun r => r.id == rid && r.user == uid) with
  | none => (.notFound, s)
  | some _ =>
    if isImg f then
      (.ok (rid, f.name),
       { s with recipes := s.recipes.map (fun x =>
          if x.id == rid && x.user == uid then { x with image := some f.name } else x) })
    else
      (.invalid [("image",
        "Upload a valid image. The file you uploaded was either not an image or a corrupted image.")], s)

/-! ## Router registrations (`urls.py`) -/

/-- The prefixes registered on the `DefaultRouter` in `recipe/urls.py`:
`ROUTER.register("tags", views.TagViewSet)` and
`ROUTER.register("ingredients", views.IngredientViewSet)` are its only
`register` calls. -/
def routerRegistrations : List String := ["tags", "ingredients"]

/-! ## Authenticated dispatch

Both viewsets declare `authentication_classes = (TokenAuthentication,)` and
`permission_classes = (IsAuthenticated,)`, so the framework rejects any
request that does not carry a valid token with status 401 before the view
body runs. `auth = none` models a request with no or an invalid token;
`auth = some uid` a request authenticated as user `uid`. -/

/-- The operations exposed by the recipe app's viewsets. -/
inductive ApiRequest where
  | tagList (assigned_only : Option String)
  | tagCreate (p : AttrPayload)
  | ingredientList (assigned_only : Option String)
  | ingredientCreate (p : AttrPayload)
  | recipeList (tags ingredients : Option String)
  | recipeRetrieve (rid : Nat)
  | recipeCreate (p : RecipePayload)
  | recipeUpdate (rid : Nat) (p : RecipePayload) (full : Bool)
  | recipeUploadImage (rid : Nat) (f : ImageFile)
deriving DecidableEq, Repr

/-- Dispatch of an authenticated request to the corresponding operation,
returning the response status and the store afterwards. An uncaught
conversion exception from parameter parsing surfaces as a server error
(status 500), not as a 400 validation answer. -/
def runRequest (isImg : ImageFile → Bool) (s : Store) (uid : Nat) :
    ApiRequest → Nat × Store
  | .tagList ao =>
    match tag_list s uid ao with
    | some _ => (200, s)
    | none => (500, s)
  | .tagCreate p =>
    match tag_create s uid p with
    | some (s2, _) => (201, s2)
    | none => (400, s)
  | .ingredientList ao =>
    match ingredient_list s uid ao with
    | some _ => (200, s)
    | none => (500, s)
  | .ingredientCreate p =>
    match ingredient_create s uid p with
    | some (s2, _) => (201, s2)
    | none => (400, s)
  | .recipeList tp ip =>
    match recipe_list s uid tp ip with
    | some _ => (200, s)
    | none => (500, s)
  | .recipeRetrieve rid =>
    match s.recipes.find? (fun r => r.id == rid && r.user == uid) with
    | some _ => (200, s)
    | none => (404, s)
  | .recipeCreate p =>
    match recipe_create s uid p with
    | some (s2, _) => (201, s2)
    | none => (400, s)
  | .recipeUpdate rid p full =>
    match recipe_update s uid rid p full with
    | some s2 => (200, s2)
    | none => (400, s)
  | .recipeUploadImage rid f =>
    match upload_image isImg s uid rid f with
    | (.ok _, s2) => (200, s2)
    | (.invalid _, s2) => (400, s2)
    | (.notFound, s2) => (404, s2)

/-- Entry point of every request to the recipe app: the authentication and
permission layer declared on both viewsets answers 401 and leaves the store
untouched when the request carries no valid token, and dispatches to the
operation otherwise. -/
def handle (isImg : ImageFile → Bool) (s : Store) (auth : Option Nat)
    (req : ApiRequest) : Nat × Store :=
  match auth with
  | none => (401, s)
  | some uid => runRequest isImg s uid req

/-! ## Concrete fixtures used to instantiate the theorems -/

/-- A tag owned by user 1. -/
def demoTagA : Attr := { id := 10, user := 1, name := "Vegan" }

/-- A tag owned by user 2. -/
def demoTagB : Attr := { id := 11, user := 2, name := "Dessert" }

/-- An ingredient owned by user 1. -/
def demoIngA : Attr := { id := 20, user := 1, name := "Salt" }

/-- An ingredient owned by user 2. -/
def demoIngB : Attr := { id := 21, user := 2, name := "Sugar" }

/-- A recipe owned by user 1, tagged with tag 10 and ingredient 20. -/
def demoRecipe : Recipe :=
  { id := 100, user := 1, title := "Sample Recipe", time_minutes := 10,
    price := 499, link := "", image := none, tags := [10], ingredients := [20] }

/-- A store with two users' tags and ingredients and one recipe of user 1. -/
def demoStore : Store :=
  { tags := [demoTagA, demoTagB], ingredients := [demoIngA, demoIngB],
    recipes := [demoRecipe] }

/-- A create payload by which user 1 references user 2's tag (id 11). -/
def crossPayload : RecipePayload :=
  { title := some "Thai Curry", time_minutes := some 30, price := some 555,
    link := none, tags := some [11], ingredients := none, user := some 2 }

/-- An update payload by which user 1 references user 2's tag (id 11). -/
def crossUpdatePayload : RecipePayload :=
  { title := none, time_minutes := none, price := none,
    link := none, tags := some [11], ingredients := none, user := none }

/-- A full-update payload that omits the `tags` field. -/
def omitTagsPayload : RecipePayload :=
  { title := some "Chow Mein", time_minutes := some 15, price := some 698,
    link := none, tags := none, ingredients := none, user := none }

/-- A tag/ingredient create payload carrying a foreign owner key. -/
def demoAttrPayload : AttrPayload := { name := "Test tag", user := some 2 }

/-- A concrete instance of the framework's image-validity predicate: accept
files with non-empty content. -/
def demoImgValid : ImageFile → Bool := fun f => decide (f.content ≠ [])

/-- A file the demo validity predicate accepts. -/
def goodImage : ImageFile := { name := "pic.jpg", content := [255, 216] }

/-- A file the demo validity predicate rejects. -/
def badImage : ImageFile := { name := "note.txt", content := [] }

/-! ## Helper lemmas -/

theorem charsLe_total : ∀ a b : List Char, (charsLe a b || charsLe b a) = true
  | [], b => by simp [charsLe]
  | a :: as, [] => by simp [charsLe]
  | a :: as, b :: bs => by
    unfold charsLe
    rcases Nat.lt_trichotomy a.toNat b.toNat with h | h | h
    · simp [h]
    · simp only [h, Nat.lt_irrefl, if_false, ite_self]
      simpa using charsLe_total as bs
    · simp [h, Nat.lt_asymm h]

theorem charsLe_trans : ∀ a b c : List Char,
    charsLe a b = true → charsLe b c = true → charsLe a c = true
  | [], _, _ => by simp [charsLe]
  | a :: as, [], c => by simp [charsLe]
  | a :: as, b :: bs, [] => by simp [charsLe]
  | a :: as, b :: bs, c :: cs => by
    intro h1 h2
    unfold charsLe at h1 h2 ⊢
    split_ifs at h1 h2 ⊢ <;>
      first
        | rfl
        | omega
        | exact charsLe_trans as bs cs h1 h2

theorem nameLe_trans : ∀ a b c : Attr,
    nameLe a b = true → nameLe b c = true → nameLe a c = true := by
  intro a b c h1 h2
  exact charsLe_trans _ _ _ h1 h2

theorem nameLe_total : ∀ a b : Attr, (nameLe a b || nameLe b a) = true := by
  intro a b
  exact charsLe_total _ _

theorem idGe_trans : ∀ a b c : Recipe,
    idGe a b = true → idGe b c = true → idGe a c = true := by
  intro a b c h1 h2
  simp only [idGe, decide_eq_true_eq] at h1 h2 ⊢
  omega

theorem idGe_total : ∀ a b : Recipe, (idGe a b || idGe b a) = true := by
  intro a b
  simp only [idGe, Bool.or_eq_true, decide_eq_true_eq]
  omega

theorem mem_attrRecipeJoin {attrs : List Attr} {recipes : List Recipe}
    {assoc : Recipe → List Nat} {t : Attr} :
    t ∈ attrRecipeJoin attrs recipes assoc ↔
      t ∈ attrs ∧ ∃ r ∈ recipes, t.id ∈ assoc r := by
  simp only [attrRecipeJoin, List.mem_flatMap, List.mem_map, List.mem_filter,
    decide_eq_true_eq]
  constructor
  · rintro ⟨a, ha, x, ⟨hx, hid⟩, rfl⟩
    exact ⟨ha, x, hx, hid⟩
  · rintro ⟨ht, r, hr, hid⟩
    exact ⟨t, ht, r, ⟨hr, hid⟩, rfl⟩

theorem mem_base_get_queryset {attrs : List Attr} {recipes : List Recipe}
    {assoc : Recipe → List Nat} {uid : Nat} {ao : Bool} {t : Attr} :
    t ∈ base_get_queryset attrs recipes assoc uid ao ↔
      t ∈ attrs ∧ t.user = uid ∧ (ao = true → ∃ r ∈ recipes, t.id ∈ assoc r) := by
  cases ao
  all_goals
    simp only [base_get_queryset, List.mem_mergeSort, List.mem_filter,
      List.mem_dedup, if_true, if_false, Bool.false_eq_true,
      mem_attrRecipeJoin, beq_iff_eq, false_implies, true_implies, and_true]
  all_goals tauto

theorem sorted_base_get_queryset (attrs : List Attr) (recipes : List Recipe)
    (assoc : Recipe → List Nat) (uid : Nat) (ao : Bool) :
    (base_get_queryset attrs recipes assoc uid ao).Pairwise
      (fun a b => nameLe a b = true) := by
  simp only [base_get_queryset]
  exact List.sorted_mergeSort nameLe_trans nameLe_total _

theorem nodup_base_get_queryset_assigned (attrs : List Attr)
    (recipes : List Recipe) (assoc : Recipe → List Nat) (uid : Nat) :
    (base_get_queryset attrs recipes assoc uid true).Nodup := by
  simp only [base_get_queryset, if_true]
  refine ((List.mergeSort_perm _ _).nodup_iff).mpr ?_
  exact (List.nodup_dedup _).filter _

theorem mem_recipeAssocJoin {recipes : List Recipe} {assoc : Recipe → List Nat}
    {ids : List Int} {r : Recipe} :
    r ∈ recipeAssocJoin recipes assoc ids ↔
      r ∈ recipes ∧ ∃ a ∈ assoc r, (a : Int) ∈ ids := by
  simp only [recipeAssocJoin, List.mem_flatMap, List.mem_map, List.mem_filter,
    decide_eq_true_eq]
  aesop

theorem mem_recipe_get_queryset {s : Store} {uid : Nat}
    {tagIds ingredientIds : Option (List Int)} {r : Recipe} :
    r ∈ recipe_get_queryset s uid tagIds ingredientIds ↔
      r ∈ s.recipes ∧ r.user = uid ∧
      (∀ ids, tagIds = some ids → ∃ a ∈ r.tags, (a : Int) ∈ ids) ∧
      (∀ ids, ingredientIds = some ids → ∃ a ∈ r.ingredients, (a : Int) ∈ ids) := by
  cases tagIds <;> cases ingredientIds <;>
    simp only [recipe_get_queryset, List.mem_mergeSort, List.mem_filter,
      List.mem_dedup, mem_recipeAssocJoin, beq_iff_eq, Option.some.injEq,
      forall_eq, reduceCtorEq, false_implies, implies_true, true_and, and_true] <;>
    aesop

theorem sorted_recipe_get_queryset (s : Store) (uid : Nat)
    (tagIds ingredientIds : Option (List Int)) :
    (recipe_get_queryset s uid tagIds ingredientIds).Pairwise
      (fun a b => idGe a b = true) := by
  simp only [recipe_get_queryset]
  exact List.sorted_mergeSort idGe_trans idGe_total _

theorem nodup_recipe_get_queryset_filtered (s : Store) (uid : Nat)
    (tagIds ingredientIds : Option (List Int))
    (h : tagIds ≠ none ∨ ingredientIds ≠ none) :
    (recipe_get_queryset s uid tagIds ingredientIds).Nodup := by
  cases tagIds with
  | none =>
    cases ingredientIds with
    | none => simp at h
    | some ids =>
      exact ((List.mergeSort_perm _ _).nodup_iff).mpr
        ((List.nodup_dedup _).filter _)
  | some ids =>
    cases ingredientIds with
    | none =>
      exact ((List.mergeSort_perm _ _).nodup_iff).mpr
        ((List.nodup_dedup _).filter _)
    | some ids2 =>
      exact ((List.mergeSort_perm _ _).nodup_iff).mpr
        ((List.nodup_dedup _).filter _)

theorem digitsCore_isSome : ∀ (l : List Char) (acc : Nat),
    (digitsCore acc l).isSome = digitRunTail l
  | [], _ => rfl
  | c :: rest, acc => by
    unfold digitsCore digitRunTail
    by_cases hd : c.isDigit
    · simp only [hd, if_true]
      exact digitsCore_isSome rest _
    · simp only [hd, Bool.false_eq_true, if_false]
      by_cases hu : c = '_'
      · simp only [hu, if_true]
        cases rest with
        | nil => rfl
        | cons d rest2 =>
          by_cases hdd : d.isDigit
          · simp only [hdd, if_true, Bool.true_and]
            exact digitsCore_isSome rest2 _
          · simp [hdd]
      · simp [hu]

theorem parseUnsigned_isSome (l : List Char) :
    (parseUnsigned l).isSome = isDigitRun l := by
  cases l with
  | nil => rfl
  | cons c rest =>
    unfold parseUnsigned isDigitRun
    by_cases hd : c.isDigit
    · simp only [hd, if_true, Bool.true_and]
      exact digitsCore_isSome rest _
    · simp [hd]

theorem isSome_option_map {α β : Type} (f : α → β) (o : Option α) :
    (o.map f).isSome = o.isSome := by
  cases o <;> rfl

theorem pyInt_isSome (s : String) : (pyInt s).isSome = pyIntAccepts s := by
  unfold pyInt pyIntAccepts
  cases h : stripWs s.data with
  | nil => rfl
  | cons c rest =>
    unfold pyIntCore
    by_cases h1 : c = '+'
    · simp [h1, isSome_option_map, parseUnsigned_isSome]
    · by_cases h2 : c = '-'
      · cases hp : parseUnsigned rest <;>
          simp [h1, h2, hp, ← parseUnsigned_isSome]
      · simp [h1, h2, isSome_option_map, parseUnsigned_isSome]

theorem digitRunTail_of_all_digits : ∀ l : List Char,
    l.all Char.isDigit = true → digitRunTail l = true
  | [], _ => rfl
  | c :: rest, h => by
    simp only [List.all_cons, Bool.and_eq_true] at h
    unfold digitRunTail
    simp only [h.1, if_true]
    exact digitRunTail_of_all_digits rest h.2

theorem isDigitRun_of_all_digits (l : List Char) (hne : l ≠ [])
    (h : l.all Char.isDigit = true) : isDigitRun l = true := by
  cases l with
  | nil => exact absurd rfl hne
  | cons c rest =>
    simp only [List.all_cons, Bool.and_eq_true] at h
    unfold isDigitRun
    simp only [h.1, Bool.true_and]
    exact digitRunTail_of_all_digits rest h.2

theorem pyIntAccepts_of_plain (s : String) (h : isPlainDecimalWs s = true) :
    pyIntAccepts s = true := by
  unfold isPlainDecimalWs at h
  rw [Bool.and_eq_true, decide_eq_true_eq] at h
  obtain ⟨hne, hall⟩ := h
  unfold pyIntAccepts
  cases hcase : stripWs s.data with
  | nil => exact absurd hcase hne
  | cons c rest =>
    rw [hcase] at hall
    have hc : c.isDigit = true := by
      simp only [List.all_cons, Bool.and_eq_true] at hall
      exact hall.1
    have hplus : ¬(c = '+') := by
      intro he
      rw [he] at hc
      exact absurd hc (by decide)
    have hminus : ¬(c = '-') := by
      intro he
      rw [he] at hc
      exact absurd hc (by decide)
    simp only [hplus, hminus, if_false]
    exact isDigitRun_of_all_digits _ (by simp) hall

theorem paramsToIntsList_isSome : ∀ l : List String,
    (paramsToIntsList l).isSome = l.all (fun c => (pyInt c).isSome)
  | [] => rfl
  | c :: rest => by
    have hrec := paramsToIntsList_isSome rest
    unfold paramsToIntsList
    cases h1 : pyInt c with
    | none => simp [h1]
    | some n =>
      cases h2 : paramsToIntsList rest with
      | none =>
        rw [h2] at hrec
        simp [h1, ← hrec]
      | some ns =>
        rw [h2] at hrec
        simp [h1, ← hrec]

theorem params_to_ints_isSome (qs : String) :
    (params_to_ints qs).isSome = (pySplit qs ',').all pyIntAccepts := by
  unfold params_to_ints
  rw [paramsToIntsList_isSome]
  simp only [pyInt_isSome]

theorem find?_map_if (l : List Recipe) (pred : Recipe → Bool)
    (f : Recipe → Recipe) (hf : ∀ x, pred x = true → pred (f x) = true) :
    ∀ {r : Recipe}, l.find? pred = some r →
      (l.map (fun x => if pred x then f x else x)).find? pred = some (f r) := by
  induction l with
  | nil => intro r h; simp at h
  | cons a l ih =>
    intro r h
    by_cases ha : pred a = true
    · rw [List.find?_cons_of_pos _ ha] at h
      injection h with h
      subst h
      simp only [List.map_cons, if_pos ha]
      exact List.find?_cons_of_pos _ (hf a ha)
    · rw [List.find?_cons_of_neg _ (by simpa using ha)] at h
      simp only [List.map_cons, if_neg ha]
      rw [List.find?_cons_of_neg _ (by simpa using ha)]
      exact ih h

/-! ## Claim theorems -/

/-- C1: every authenticated list response contains only records owned by the
requesting user (never another user's record), the default (unfiltered)
request returns exactly the user's records, and results are ordered by the
fixed key — tag and ingredient lists ascending by name, recipe lists by
descending id. -/
theorem C1_user_scoping_and_ordering (s : Store) (uid : Nat) :
    (∀ ao res, tag_list s uid ao = some res →
      (∀ t ∈ res, t.user = uid) ∧ res.Pairwise (fun a b => nameLe a b = true)) ∧
    (∀ ao res, ingredient_list s uid ao = some res →
      (∀ t ∈ res, t.user = uid) ∧ res.Pairwise (fun a b => nameLe a b = true)) ∧
    (∀ tp ip res, recipe_list s uid tp ip = some res →
      (∀ r ∈ res, r.user = uid) ∧ res.Pairwise (fun a b => idGe a b = true)) ∧
    (∀ t, t ∈ tag_get_queryset s uid false ↔ t ∈ s.tags ∧ t.user = uid) ∧
    (∀ t, t ∈ ingredient_get_queryset s uid false ↔
      t ∈ s.ingredients ∧ t.user = uid) ∧
    (∀ r, r ∈ recipe_get_queryset s uid none none ↔
      r ∈ s.recipes ∧ r.user = uid) ∧
    tag_list s uid none = some (tag_get_queryset s uid false) ∧
    ingredient_list s uid none = some (ingredient_get_queryset s uid false) ∧
    recipe_list s uid none none = some (recipe_get_queryset s uid none none) := by
  refine ⟨?_, ?_, ?_, ?_, ?_, ?_, rfl, rfl, rfl⟩
  · intro ao res h
    obtain ⟨b, _, rfl⟩ := Option.map_eq_some'.mp h
    exact ⟨fun t ht => (mem_base_get_queryset.mp ht).2.1,
      sorted_base_get_queryset _ _ _ _ _⟩
  · intro ao res h
    obtain ⟨b, _, rfl⟩ := Option.map_eq_some'.mp h
    exact ⟨fun t ht => (mem_base_get_queryset.mp ht).2.1,
      sorted_base_get_queryset _ _ _ _ _⟩
  · intro tp ip res h
    unfold recipe_list at h
    rcases h1 : parseFilterParam tp with _ | tIds <;> rw [h1] at h
    · exact absurd h (by simp)
    rcases h2 : parseFilterParam ip with _ | iIds <;> rw [h2] at h
    · exact absurd h (by simp)
    injection h with h
    subst h
    exact ⟨fun r hr => (mem_recipe_get_queryset.mp hr).2.1,
      sorted_recipe_get_queryset _ _ _ _⟩
  · intro t
    unfold tag_get_queryset
    rw [mem_base_get_queryset]
    simp
  · intro t
    unfold ingredient_get_queryset
    rw [mem_base_get_queryset]
    simp
  · intro r
    rw [mem_recipe_get_queryset]
    simp

/-- C1 witness: the theorem instantiated at a concrete store and user, with
its inner hypotheses discharged on the `assigned_only = 1` tag request. -/
theorem C1_witness :
    tag_list demoStore 1 (some "1") = some (tag_get_queryset demoStore 1 true) ∧
    (∀ t ∈ tag_get_queryset demoStore 1 true, t.user = 1) ∧
    (tag_get_queryset demoStore 1 true).Pairwise (fun a b => nameLe a b = true) := by
  have h := (C1_user_scoping_and_ordering demoStore 1).1 (some "1")
    (tag_get_queryset demoStore 1 true) rfl
  exact ⟨rfl, h.1, h.2⟩

/-- C4: for a recipe list request carrying a tags and/or an ingredients
filter, the parsed queryset contains exactly the caller's recipes having at
least one of the given tag ids (and at least one of the given ingredient ids
when that filter is present too), without duplicates. -/
theorem C4_filtered_recipe_list (s : Store) (uid : Nat)
    (tagIds ingredientIds : Option (List Int))
    (h : tagIds ≠ none ∨ ingredientIds ≠ none) :
    (∀ r, r ∈ recipe_get_queryset s uid tagIds ingredientIds ↔
      r ∈ s.recipes ∧ r.user = uid ∧
      (∀ ids, tagIds = some ids → ∃ a ∈ r.tags, (a : Int) ∈ ids) ∧
      (∀ ids, ingredientIds = some ids → ∃ a ∈ r.ingredients, (a : Int) ∈ ids)) ∧
    (recipe_get_queryset s uid tagIds ingredientIds).Nodup :=
  ⟨fun _ => mem_recipe_get_queryset,
   nodup_recipe_get_queryset_filtered s uid _ _ h⟩

/-- C4 witness: the theorem applied to the demo store with the tags filter
`[10]`, its hypothesis discharged concretely. -/
theorem C4_witness :
    ((some [(10 : Int)] ≠ none ∨ (none : Option (List Int)) ≠ none) ∧
      (∀ r, r ∈ recipe_get_queryset demoStore 1 (some [10]) none ↔
        r ∈ demoStore.recipes ∧ r.user = 1 ∧
        (∀ ids, some [(10 : Int)] = some ids → ∃ a ∈ r.tags, (a : Int) ∈ ids) ∧
        (∀ ids, (none : Option (List Int)) = some ids →
          ∃ a ∈ r.ingredients, (a : Int) ∈ ids)) ∧
      (recipe_get_queryset demoStore 1 (some [10]) none).Nodup) :=
  ⟨Or.inl (by simp),
   C4_filtered_recipe_list demoStore 1 (some [10]) none (Or.inl (by simp))⟩

/-- C5: with `assigned_only` enabled, the tag (resp. ingredient) list
contains exactly the caller's tags (ingredients) referenced by at least one
recipe, each exactly once even when referenced by several recipes. -/
theorem C5_assigned_only (s : Store) (uid : Nat) :
    tag_list s uid (some "1") = some (tag_get_queryset s uid true) ∧
    (∀ t, t ∈ tag_get_queryset s uid true ↔
      t ∈ s.tags ∧ t.user = uid ∧ ∃ r ∈ s.recipes, t.id ∈ r.tags) ∧
    (tag_get_queryset s uid true).Nodup ∧
    ingredient_list s uid (some "1") = some (ingredient_get_queryset s uid true) ∧
    (∀ t, t ∈ ingredient_get_queryset s uid true ↔
      t ∈ s.ingredients ∧ t.user = uid ∧ ∃ r ∈ s.recipes, t.id ∈ r.ingredients) ∧
    (ingredient_get_queryset s uid true).Nodup := by
  refine ⟨rfl, ?_, nodup_base_get_queryset_assigned _ _ _ _, rfl, ?_,
    nodup_base_get_queryset_assigned _ _ _ _⟩
  · intro t
    unfold tag_get_queryset
    rw [mem_base_get_queryset]
    simp
  · intro t
    unfold ingredient_get_queryset
    rw [mem_base_get_queryset]
    simp

/-- C2: the URL router of the recipe app registers no `recipes` prefix — its
only registrations are `tags` and `ingredients` — so the recipe routes the
spec and the repository's own tests rely on do not exist. -/
theorem C2_router_missing_recipes :
    "recipes" ∉ routerRegistrations ∧ routerRegistrations = ["tags", "ingredients"] := by
  constructor
  · simp [routerRegistrations]
  · rfl

/-- C3: on an owned recipe, a full update whose payload omits `tags`
succeeds and leaves the recipe with no tag associations, while a partial
update whose payload omits `tags` succeeds and preserves the recipe's
existing tag associations. -/
theorem C3_update_tags_semantics (s : Store) (uid rid : Nat)
    (p : RecipePayload) (r : Recipe)
    (hfind : s.recipes.find? (fun x => x.id == rid && x.user == uid) = some r)
    (htags : p.tags = none)
    (hreq : requiredOk p true = true)
    (htitle : titleOk p = true)
    (hing : optValidIds s.ingredients p.ingredients = true) :
    (∃ s2, recipe_update s uid rid p true = some s2 ∧
      ∃ r2, s2.recipes.find? (fun x => x.id == rid && x.user == uid) = some r2 ∧
        r2.tags = []) ∧
    (∃ s2, recipe_update s uid rid p false = some s2 ∧
      ∃ r2, s2.recipes.find? (fun x => x.id == rid && x.user == uid) = some r2 ∧
        r2.tags = r.tags) := by
  have hvalid : optValidIds s.tags p.tags = true := by rw [htags]; rfl
  have hpres : ∀ full : Bool, ∀ x : Recipe,
      (x.id == rid && x.user == uid) = true →
      ((recipe_apply_update x p full).id == rid &&
        (recipe_apply_update x p full).user == uid) = true :=
    fun _ _ hx => hx
  constructor
  · have hsucc : recipe_update s uid rid p true =
        some { s with recipes := s.recipes.map (fun x =>
          if x.id == rid && x.user == uid then recipe_apply_update x p true
          else x) } := by
      unfold recipe_update
      rw [hfind, hreq, htitle, hvalid, hing]
      rfl
    exact ⟨_, hsucc, recipe_apply_update r p true,
      find?_map_if s.recipes _ _ (hpres true) hfind,
      by simp [recipe_apply_update, htags]⟩
  · have hsucc : recipe_update s uid rid p false =
        some { s with recipes := s.recipes.map (fun x =>
          if x.id == rid && x.user == uid then recipe_apply_update x p false
          else x) } := by
      unfold recipe_update
      rw [hfind, htitle, hvalid, hing]
      rfl
    exact ⟨_, hsucc, recipe_apply_update r p false,
      find?_map_if s.recipes _ _ (hpres false) hfind,
      by simp [recipe_apply_update, htags]⟩

/-- C3 witness: user 1's recipe 100 in the demo store, updated with a
payload that has scalar fields but no `tags` field. -/
theorem C3_witness :
    (demoStore.recipes.find? (fun x => x.id == 100 && x.user == 1) =
      some demoRecipe) ∧
    ((∃ s2, recipe_update demoStore 1 100 omitTagsPayload true = some s2 ∧
      ∃ r2, s2.recipes.find? (fun x => x.id == 100 && x.user == 1) = some r2 ∧
        r2.tags = []) ∧
    (∃ s2, recipe_update demoStore 1 100 omitTagsPayload false = some s2 ∧
      ∃ r2, s2.recipes.find? (fun x => x.id == 100 && x.user == 1) = some r2 ∧
        r2.tags = demoRecipe.tags)) :=
  ⟨rfl, C3_update_tags_semantics demoStore 1 100 omitTagsPayload demoRecipe
    rfl rfl rfl rfl rfl⟩

/-- C6: association ids are not checked for ownership: user 1's create that
lists user 2's tag (id 11) succeeds and associates that foreign tag, and so
does user 1's update; acceptance only requires the id to exist. -/
theorem C6_cross_owner_association :
    demoTagB ∈ demoStore.tags ∧ demoTagB.user = 2 ∧ demoTagB.id = 11 ∧
    (1 : Nat) ≠ 2 ∧
    (∃ s2 rec, recipe_create demoStore 1 crossPayload = some (s2, rec) ∧
      rec.user = 1 ∧ rec.tags = [11] ∧ rec ∈ s2.recipes) ∧
    (∃ s2, recipe_update demoStore 1 100 crossUpdatePayload false = some s2 ∧
      ∃ r2, s2.recipes.find? (fun x => x.id == 100 && x.user == 1) = some r2 ∧
        r2.tags = [11]) := by
  refine ⟨by simp [demoStore, demoTagB], rfl, rfl, by decide,
    ⟨_, _, rfl, rfl, rfl, by simp⟩, ⟨_, rfl, _, rfl, rfl⟩⟩

/-- C7: every request to the tag, ingredient or recipe viewsets that does
not carry a valid token is rejected with status 401 and leaves the store
unchanged, whatever the operation. -/
theorem C7_unauthenticated_rejected (isImg : ImageFile → Bool) (s : Store)
    (req : ApiRequest) : handle isImg s none req = (401, s) := rfl

/-- C8: image upload on an owned recipe answers 200 with the serialized
data and stores the image when the payload is a valid image, and answers
400 with non-empty field-level errors leaving the store — hence the stored
image — untouched otherwise. -/
theorem C8_upload_image (isImg : ImageFile → Bool) (s : Store) (uid rid : Nat)
    (f : ImageFile) (r : Recipe)
    (hfind : s.recipes.find? (fun x => x.id == rid && x.user == uid) = some r) :
    (isImg f = true →
      ∃ s2, upload_image isImg s uid rid f = (UploadOutcome.ok (rid, f.name), s2) ∧
        ∃ r2, s2.recipes.find? (fun x => x.id == rid && x.user == uid) = some r2 ∧
          r2.image = some f.name) ∧
    (isImg f = false →
      ∃ errs, errs ≠ [] ∧
        upload_image isImg s uid rid f = (UploadOutcome.invalid errs, s)) := by
  constructor
  · intro hok
    refine ⟨{ s with recipes := s.recipes.map (fun x =>
        if x.id == rid && x.user == uid then { x with image := some f.name }
        else x) }, ?_, ?_⟩
    · unfold upload_image
      rw [hfind, if_pos hok]
    · exact ⟨_, find?_map_if s.recipes (fun x => x.id == rid && x.user == uid)
        (fun x => { x with image := some f.name }) (fun x hx => hx) hfind, rfl⟩
  · intro hbad
    refine ⟨[("image",
      "Upload a valid image. The file you uploaded was either not an image or a corrupted image.")],
      by simp, ?_⟩
    unfold upload_image
    rw [hfind, if_neg (by simp [hbad])]

/-- C8 witness: the theorem applied to an accepted and checked on a rejected
upload in the demo store. -/
theorem C8_witness :
    (demoStore.recipes.find? (fun x => x.id == 100 && x.user == 1) =
      some demoRecipe) ∧
    ((demoImgValid goodImage = true →
      ∃ s2, upload_image demoImgValid demoStore 1 100 goodImage =
          (UploadOutcome.ok (100, goodImage.name), s2) ∧
        ∃ r2, s2.recipes.find? (fun x => x.id == 100 && x.user == 1) = some r2 ∧
          r2.image = some goodImage.name) ∧
    (demoImgValid goodImage = false →
      ∃ errs, errs ≠ [] ∧
        upload_image demoImgValid demoStore 1 100 goodImage =
          (UploadOutcome.invalid errs, demoStore))) :=
  ⟨rfl, C8_upload_image demoImgValid demoStore 1 100 goodImage demoRecipe rfl⟩

/-- C9: every successful create of a tag, an ingredient or a recipe stores a
record owned by the authenticated caller, whatever owner the payload may
claim, and the new record is in the store afterwards. -/
theorem C9_create_stamps_owner (s : Store) (uid : Nat) :
    (∀ p s2 t, tag_create s uid p = some (s2, t) →
      t.user = uid ∧ t ∈ s2.tags) ∧
    (∀ p s2 t, ingredient_create s uid p = some (s2, t) →
      t.user = uid ∧ t ∈ s2.ingredients) ∧
    (∀ p s2 rec, recipe_create s uid p = some (s2, rec) →
      rec.user = uid ∧ rec ∈ s2.recipes) := by
  refine ⟨?_, ?_, ?_⟩
  · intro p s2 t h
    unfold tag_create at h
    split_ifs at h
    simp only [Option.some.injEq, Prod.mk.injEq] at h
    obtain ⟨hs2, ht⟩ := h
    subst hs2
    subst ht
    exact ⟨rfl, by simp⟩
  · intro p s2 t h
    unfold ingredient_create at h
    split_ifs at h
    simp only [Option.some.injEq, Prod.mk.injEq] at h
    obtain ⟨hs2, ht⟩ := h
    subst hs2
    subst ht
    exact ⟨rfl, by simp⟩
  · intro p s2 rec h
    unfold recipe_create at h
    rcases hT : p.title with _ | title <;> rw [hT] at h
    · simp at h
    rcases hM : p.time_minutes with _ | tm <;> rw [hM] at h
    · simp at h
    rcases hP : p.price with _ | price <;> rw [hP] at h
    · simp at h
    simp only [] at h
    split_ifs at h
    simp only [Option.some.injEq, Prod.mk.injEq] at h
    obtain ⟨hs2, hrec⟩ := h
    subst hs2
    subst hrec
    exact ⟨rfl, by simp⟩

/-- C9 witness: the theorem applied to a concrete tag create whose payload
claims user 2 as owner while user 1 is the caller. -/
theorem C9_witness :
    ∃ s2 t, tag_create demoStore 1 demoAttrPayload = some (s2, t) ∧
      t.user = 1 ∧ t ∈ s2.tags := by
  refine ⟨_, _, rfl, ?_⟩
  exact (C9_create_stamps_owner demoStore 1).1 demoAttrPayload _ _ rfl

/-- C10 counterexample: the component `+5` is not a plain decimal integer
literal surrounded by whitespace and is non-empty, yet the list operations
complete normally on it instead of raising the conversion exception the
claim predicts. -/
theorem C10_counterexample :
    isPlainDecimalWs "+5" = false ∧ "+5" ≠ "" ∧
    recipe_list demoStore 1 (some "+5") none =
      some (recipe_get_queryset demoStore 1 (some [5]) none) ∧
    tag_list demoStore 1 (some "+1") = some (tag_get_queryset demoStore 1 true) := by
  exact ⟨by decide, by decide, rfl, rfl⟩

/-- C10 (amended): for an ASCII parameter value — Python first maps other
Unicode decimal digits and whitespace to ASCII, and of that mapping the
model carries the whitespace table in full but not the non-ASCII digits, so
exactness is stated on ASCII values — a list operation with a non-empty
filter value is total exactly when every comma-separated component (resp.
the `assigned_only` value) is an optionally signed decimal digit run —
single underscores allowed between digits — surrounded by optional
whitespace; for any other such value it raises the uncaught conversion
exception instead of a 400 answer. Plain digit runs remain sufficient, as
the original claim stated. -/
theorem C10_param_parsing_totality (s : Store) (uid : Nat) (str : String)
    (hne : str ≠ "")
    (_hascii : str.data.all (fun c => c.toNat < 128) = true) :
    ((recipe_list s uid (some str) none).isSome ↔
      ∀ c ∈ pySplit str ',', pyIntAccepts c = true) ∧
    ((recipe_list s uid none (some str)).isSome ↔
      ∀ c ∈ pySplit str ',', pyIntAccepts c = true) ∧
    ((tag_list s uid (some str)).isSome ↔ pyIntAccepts str = true) ∧
    ((ingredient_list s uid (some str)).isSome ↔ pyIntAccepts str = true) ∧
    ((∀ c ∈ pySplit str ',', isPlainDecimalWs c = true) →
      (recipe_list s uid (some str) none).isSome) := by
  have hkey : (params_to_ints str).isSome = true ↔
      ∀ c ∈ pySplit str ',', pyIntAccepts c = true := by
    rw [params_to_ints_isSome]
    exact List.all_eq_true
  have hrecipe : (recipe_list s uid (some str) none).isSome =
      (params_to_ints str).isSome := by
    cases h : params_to_ints str <;>
      simp [recipe_list, parseFilterParam, hne, h]
  have hrecipe2 : (recipe_list s uid none (some str)).isSome =
      (params_to_ints str).isSome := by
    cases h : params_to_ints str <;>
      simp [recipe_list, parseFilterParam, hne, h]
  have htag : (tag_list s uid (some str)).isSome = (pyInt str).isSome := by
    cases h : pyInt str <;> simp [tag_list, parse_assigned_only, h]
  have hingr : (ingredient_list s uid (some str)).isSome = (pyInt str).isSome := by
    cases h : pyInt str <;> simp [ingredient_list, parse_assigned_only, h]
  refine ⟨by rw [hrecipe]; exact hkey, by rw [hrecipe2]; exact hkey,
    by rw [htag, pyInt_isSome], by rw [hingr, pyInt_isSome], ?_⟩
  intro hplain
  rw [hrecipe]
  exact hkey.mpr (fun c hc => pyIntAccepts_of_plain c (hplain c hc))

/-- C10 witness: the amended theorem instantiated on the ASCII value
` 12,+5`, whose components Python `int` all accepts. -/
theorem C10_witness :
    (" 12,+5" ≠ "") ∧
    ((" 12,+5" : String).data.all (fun c => c.toNat < 128) = true) ∧
    (recipe_list demoStore 1 (some " 12,+5") none).isSome := by
  have h := C10_param_parsing_totality demoStore 1 " 12,+5" (by decide) (by decide)
  exact ⟨by decide, by decide, h.1.mpr (by decide)⟩

end RecipeProject
